import Mathlib

/-!
Verification of the response-normalization layer of the `just-tbp` client
library (`just_tbp/utils.py` and the page-count normalization step of
`just_tbp/async_client.py`), via a shallow embedding in Lean.

JSON payloads are modelled by the `Json` inductive (the API never emits
floating-point numbers; integers are arbitrary-precision, as in Python).
Python dictionaries are modelled as association lists with unique keys in
insertion order; `dict.get` is first-match lookup.  Exceptions are modelled
with `Except`: `PyError.contentError` stands for `TPBContentError` (its
message text is not modelled) and `PyError.attributeError` for an
`AttributeError` escaping the library's `except (ValueError, TypeError)`
handlers.  `datetime` values are represented by their integer Unix
timestamp in seconds, UTC.
-/

namespace JustTBP

/-- Decoded JSON value as handed to the normalizer by the transport layer. -/
inductive Json where
  | null : Json
  | bool : Bool → Json
  | num : Int → Json
  | str : String → Json
  | arr : List Json → Json
  | obj : List (String × Json) → Json

mutual

/-- Boolean equality on `Json` values (used to build decidable equality). -/
def jsonBeq : Json → Json → Bool
  | .null, .null => true
  | .bool a, .bool b => a == b
  | .num a, .num b => a == b
  | .str a, .str b => a == b
  | .arr a, .arr b => jsonListBeq a b
  | .obj a, .obj b => jsonObjBeq a b
  | _, _ => false

/-- Boolean equality on lists of `Json` values. -/
def jsonListBeq : List Json → List Json → Bool
  | [], [] => true
  | x :: xs, y :: ys => jsonBeq x y && jsonListBeq xs ys
  | _, _ => false

/-- Boolean equality on association lists of `Json` values. -/
def jsonObjBeq : List (String × Json) → List (String × Json) → Bool
  | [], [] => true
  | (k, v) :: xs, (k2, v2) :: ys => k == k2 && jsonBeq v v2 && jsonObjBeq xs ys
  | _, _ => false

end

mutual

/-- Reflexivity of `jsonBeq`. -/
theorem jsonBeq_refl : ∀ a : Json, jsonBeq a a = true
  | .null => rfl
  | .bool a => by simp [jsonBeq]
  | .num a => by simp [jsonBeq]
  | .str a => by simp [jsonBeq]
  | .arr l => by rw [jsonBeq]; exact jsonListBeq_refl l
  | .obj l => by rw [jsonBeq]; exact jsonObjBeq_refl l

/-- Reflexivity of `jsonListBeq`. -/
theorem jsonListBeq_refl : ∀ l : List Json, jsonListBeq l l = true
  | [] => rfl
  | x :: xs => by rw [jsonListBeq, jsonBeq_refl x, jsonListBeq_refl xs]; rfl

/-- Reflexivity of `jsonObjBeq`. -/
theorem jsonObjBeq_refl : ∀ l : List (String × Json), jsonObjBeq l l = true
  | [] => rfl
  | (k, v) :: xs => by
      rw [jsonObjBeq, jsonBeq_refl v, jsonObjBeq_refl xs]
      simp

end

mutual

/-- Soundness of `jsonBeq`: equal Boolean test implies propositional equality. -/
theorem jsonBeq_eq : ∀ a b : Json, jsonBeq a b = true → a = b
  | .null, .null, _ => rfl
  | .bool a, .bool b, h => by
      rw [jsonBeq] at h; rw [eq_of_beq h]
  | .num a, .num b, h => by
      rw [jsonBeq] at h; rw [eq_of_beq h]
  | .str a, .str b, h => by
      rw [jsonBeq] at h; rw [eq_of_beq h]
  | .arr a, .arr b, h => by
      rw [jsonBeq] at h; rw [jsonListBeq_eq a b h]
  | .obj a, .obj b, h => by
      rw [jsonBeq] at h; rw [jsonObjBeq_eq a b h]
  | .null, .bool _, h => Bool.noConfusion h
  | .null, .num _, h => Bool.noConfusion h
  | .null, .str _, h => Bool.noConfusion h
  | .null, .arr _, h => Bool.noConfusion h
  | .null, .obj _, h => Bool.noConfusion h
  | .bool _, .null, h => Bool.noConfusion h
  | .bool _, .num _, h => Bool.noConfusion h
  | .bool _, .str _, h => Bool.noConfusion h
  | .bool _, .arr _, h => Bool.noConfusion h
  | .bool _, .obj _, h => Bool.noConfusion h
  | .num _, .null, h => Bool.noConfusion h
  | .num _, .bool _, h => Bool.noConfusion h
  | .num _, .str _, h => Bool.noConfusion h
  | .num _, .arr _, h => Bool.noConfusion h
  | .num _, .obj _, h => Bool.noConfusion h
  | .str _, .null, h => Bool.noConfusion h
  | .str _, .bool _, h => Bool.noConfusion h
  | .str _, .num _, h => Bool.noConfusion h
  | .str _, .arr _, h => Bool.noConfusion h
  | .str _, .obj _, h => Bool.noConfusion h
  | .arr _, .null, h => Bool.noConfusion h
  | .arr _, .bool _, h => Bool.noConfusion h
  | .arr _, .num _, h => Bool.noConfusion h
  | .arr _, .str _, h => Bool.noConfusion h
  | .arr _, .obj _, h => Bool.noConfusion h
  | .obj _, .null, h => Bool.noConfusion h
  | .obj _, .bool _, h => Bool.noConfusion h
  | .obj _, .num _, h => Bool.noConfusion h
  | .obj _, .str _, h => Bool.noConfusion h
  | .obj _, .arr _, h => Bool.noConfusion h

/-- Soundness of `jsonListBeq`. -/
theorem jsonListBeq_eq : ∀ a b : List Json, jsonListBeq a b = true → a = b
  | [], [], _ => rfl
  | [], _ :: _, h => Bool.noConfusion h
  | _ :: _, [], h => Bool.noConfusion h
  | x :: xs, y :: ys, h => by
      rw [jsonListBeq] at h
      rcases Bool.and_eq_true_iff.mp h with ⟨h1, h2⟩
      rw [jsonBeq_eq x y h1, jsonListBeq_eq xs ys h2]

/-- Soundness of `jsonObjBeq`. -/
theorem jsonObjBeq_eq :
    ∀ a b : List (String × Json), jsonObjBeq a b = true → a = b
  | [], [], _ => rfl
  | [], _ :: _, h => Bool.noConfusion h
  | _ :: _, [], h => Bool.noConfusion h
  | (k, v) :: xs, (k2, v2) :: ys, h => by
      rw [jsonObjBeq] at h
      rcases Bool.and_eq_true_iff.mp h with ⟨h12, h3⟩
      rcases Bool.and_eq_true_iff.mp h12 with ⟨h1, h2⟩
      rw [eq_of_beq h1, jsonBeq_eq v v2 h2, jsonObjBeq_eq xs ys h3]

end

instance : DecidableEq Json := fun a b =>
  if h : jsonBeq a b = true then isTrue (jsonBeq_eq a b h)
  else isFalse (fun hh => h (hh ▸ jsonBeq_refl a))

instance {ε α : Type} [DecidableEq ε] [DecidableEq α] : DecidableEq (Except ε α) := fun x y =>
  match x, y with
  | .ok a, .ok b =>
    if h : a = b then isTrue (by rw [h])
    else isFalse (by intro hh; cases hh; exact h rfl)
  | .error a, .error b =>
    if h : a = b then isTrue (by rw [h])
    else isFalse (by intro hh; cases hh; exact h rfl)
  | .ok _, .error _ => isFalse (by intro hh; cases hh)
  | .error _, .ok _ => isFalse (by intro hh; cases hh)

/-- Lookup in a Python dictionary modelled as an association list
(`data.get(k)`): the value at the first matching key, `none` when absent. -/
def getKey (kvs : List (String × Json)) (k : String) : Option Json :=
  match kvs.find? (fun p => p.1 == k) with
  | some p => some p.2
  | none => none

/-- Python truthiness (`bool(x)`) on JSON values: `None`, `False`, `0`,
empty string, empty list and empty dict are falsy, everything else truthy. -/
def pyTruthy : Json → Bool
  | .null => false
  | .bool b => b
  | .num n => n != 0
  | .str s => !s.toList.isEmpty
  | .arr l => !l.isEmpty
  | .obj l => !l.isEmpty

/-- ASCII whitespace stripped by Python `str.strip()`: space, tab,
newline, carriage return, vertical tab, form feed.  (Python additionally
strips Unicode whitespace, which is not modelled.) -/
def isPySpace (c : Char) : Bool :=
  c = ' ' || c = '\t' || c = '\n' || c = '\r' || c.toNat = 11 || c.toNat = 12

/-- Python `str.strip()` (ASCII whitespace only): drop leading and
trailing whitespace characters. -/
def pyStrip (s : String) : String :=
  String.mk (((s.toList.dropWhile isPySpace).reverse.dropWhile isPySpace).reverse)

/-- Value of a list of decimal digit characters. -/
def decDigitsVal (cs : List Char) : Nat :=
  cs.foldl (fun a c => a * 10 + (c.toNat - 48)) 0

/-- Python `int(s)` on a string: strip surrounding whitespace, then an
optional sign followed by a non-empty run of decimal digits; anything else
raises `ValueError` (modelled as `none`).  Approximations: only ASCII
digits and ASCII whitespace are modelled (Python additionally accepts
Unicode digits/spaces and underscore digit grouping). -/
def parseDecimal? (s : String) : Option Int :=
  match (pyStrip s).toList with
  | [] => none
  | c :: rest =>
    if c = '+' then
      if rest ≠ [] ∧ rest.all Char.isDigit then some (decDigitsVal rest) else none
    else if c = '-' then
      if rest ≠ [] ∧ rest.all Char.isDigit then some (-(decDigitsVal rest : Int)) else none
    else if (c :: rest).all Char.isDigit then some (decDigitsVal (c :: rest)) else none

/-- Python `int(x)` on a JSON value: ints pass through, bools coerce to
0/1 (`bool` is a subclass of `int`), strings parse as decimal numerals;
`None`, lists and dicts raise `TypeError` (modelled as `none`). -/
def pyInt : Json → Option Int
  | .num n => some n
  | .bool b => some (if b then 1 else 0)
  | .str s => parseDecimal? s
  | _ => none

/-- Python `isinstance(x, int)`: true for ints and bools (a subclass). -/
def isinstance_int : Json → Bool
  | .num _ => true
  | .bool _ => true
  | _ => false

mutual

/-- Python `repr(x)` of a JSON value (strings quoted with `\x27`,
containers rendered recursively; scalar cases are exact, container
rendering follows CPython's spacing). -/
def pyRepr : Json → String
  | .null => "None"
  | .bool true => "True"
  | .bool false => "False"
  | .num n => toString n
  | .str s => "\x27" ++ s ++ "\x27"
  | .arr l => "[" ++ pyReprList l ++ "]"
  | .obj l => "\x7b" ++ pyReprObj l ++ "\x7d"

/-- Comma-separated `repr` of list elements. -/
def pyReprList : List Json → String
  | [] => ""
  | [x] => pyRepr x
  | x :: rest => pyRepr x ++ ", " ++ pyReprList rest

/-- Comma-separated `repr` of dict entries. -/
def pyReprObj : List (String × Json) → String
  | [] => ""
  | [(k, v)] => "\x27" ++ k ++ "\x27: " ++ pyRepr v
  | (k, v) :: rest => "\x27" ++ k ++ "\x27: " ++ pyRepr v ++ ", " ++ pyReprObj rest

end

/-- Python `str(x)`: the string itself for strings, `repr`-style rendering
otherwise (for ints, bools and `None` this is exact CPython output). -/
def pyStr : Json → String
  | .str s => s
  | x => pyRepr x

/-- Python `str.isdigit()` restricted to ASCII: non-empty and all digits. -/
def pyAllDigits (s : String) : Bool :=
  !s.toList.isEmpty && s.toList.all Char.isDigit

/-- Python `str.lower()` restricted to the ASCII mapping (sufficient for
the hexadecimal info-hash strings the code lowercases). -/
def pyLower (s : String) : String :=
  String.mk (s.toList.map Char.toLower)

mutual

/-- Occurrence of a JSON value inside another: `occursB j t` holds when
`j` is `t` itself or a value nested anywhere inside `t`'s lists and
dicts.  Used to state that normalization draws its outputs from the raw
payload itself. -/
def occursB (j : Json) : Json → Bool
  | .null => jsonBeq j .null
  | .bool b => jsonBeq j (.bool b)
  | .num n => jsonBeq j (.num n)
  | .str s => jsonBeq j (.str s)
  | .arr l => jsonBeq j (.arr l) || occursListB j l
  | .obj l => jsonBeq j (.obj l) || occursObjB j l

/-- Occurrence of a JSON value inside some element of a list. -/
def occursListB (j : Json) : List Json → Bool
  | [] => false
  | x :: xs => occursB j x || occursListB j xs

/-- Occurrence of a JSON value inside some value of an association list. -/
def occursObjB (j : Json) : List (String × Json) → Bool
  | [] => false
  | kv :: xs => occursB j kv.2 || occursObjB j xs

end

/-- Exception classification used by the embedding: `contentError` models
`TPBContentError`, `attributeError` models an `AttributeError` that the
library's `except (ValueError, TypeError)` / `except TPBContentError`
handlers do not catch. -/
inductive PyError where
  | contentError : PyError
  | attributeError : PyError
deriving DecidableEq

/-- The `Torrent` dataclass of `just_tbp/models.py`.  Fields that the code
copies from the payload without coercion (`name`, `username`, `status`)
keep their raw JSON value, matching the dynamic typing of the source; the
`added` datetime is represented by its Unix timestamp in seconds (UTC). -/
structure Torrent where
  id : Int
  name : Json
  info_hash : String
  leechers : Int
  seeders : Int
  num_files : Int
  size : Int
  username : Json
  added : Int
  status : Json
  category : Int
  imdb : Option Json
deriving DecidableEq

/-- The `TorrentDetails` dataclass of `just_tbp/models.py`. -/
structure TorrentDetails where
  id : Int
  name : Json
  info_hash : String
  leechers : Int
  seeders : Int
  num_files : Int
  size : Int
  username : Json
  added : Int
  status : Json
  category : Int
  descr : Json
  imdb : Option Json
  language : Option Json
  text_language : Option Json
deriving DecidableEq

/-- The `FileEntry` dataclass of `just_tbp/models.py`. -/
structure FileEntry where
  name : String
  size : Int
deriving DecidableEq

/-- The boundary used by `_parse_common_torrent_fields`: the largest valid
calendar timestamp (9999-12-31T23:59:59Z), per the source comment. -/
def MAX_VALID_TS : Int := 253402300799

/-- The smallest timestamp `datetime.fromtimestamp(.., tz=utc)` accepts
(0001-01-01T00:00:00Z). -/
def MIN_VALID_TS : Int := -62135596800

/-- Model of `datetime.fromtimestamp(ts, tz=timezone.utc)` on an integer:
returns the timestamp itself when it lies in the representable calendar
range, and raises `ValueError` (modelled as `none`) outside it.  (The
`OverflowError` CPython raises for |ts| beyond 2^63 is not modelled; it
is unreachable for the inputs considered here.) -/
def fromtimestamp_utc (ts : Int) : Option Int :=
  if MIN_VALID_TS ≤ ts ∧ ts ≤ MAX_VALID_TS then some ts else none

/-- The closed `CategoryId` enumeration of `just_tbp/constants.py`. -/
def categoryIds : List Int :=
  [101, 102, 103, 104, 199,
   201, 202, 203, 204, 205, 206, 207, 208, 209, 299,
   301, 302, 303, 304, 305, 306, 399,
   401, 402, 403, 404, 405, 406, 407, 408, 499,
   601, 602, 603, 604, 605, 699]

/-- `_parse_common_torrent_fields` of `just_tbp/utils.py`, evaluated in
source order: `added` is int-coerced first (with the millisecond
heuristic: values above `MAX_VALID_TS` are floor-divided by 1000), then
the dict literal evaluates `id`, `name`, `info_hash` (whose `.lower()`
raises `AttributeError` on a non-string — uncaught by the
`except (ValueError, TypeError)` handler), `leechers`, `seeders`,
`num_files`, `size`, `username`, the `datetime.fromtimestamp` conversion,
`status`, `category` and `imdb`.  Each failing `int()`/`fromtimestamp`
call is rendered as `contentError`, matching the handler that re-raises
`ValueError`/`TypeError` as `TPBContentError`.  Calling it on a non-dict
raises `AttributeError` at the first `.get`. -/
def _parse_common_torrent_fields (data : Json) : Except PyError Torrent :=
  match data with
  | Json.obj kvs =>
    match pyInt ((getKey kvs "added").getD (Json.num 0)) with
    | none => Except.error PyError.contentError
    | some added0 =>
      let added_ts := if MAX_VALID_TS < added0 then Int.fdiv added0 1000 else added0
      match pyInt ((getKey kvs "id").getD (Json.num 0)) with
      | none => Except.error PyError.contentError
      | some idv =>
        match (getKey kvs "info_hash").getD (Json.str "") with
        | Json.str ih =>
          match pyInt ((getKey kvs "leechers").getD (Json.num 0)) with
          | none => Except.error PyError.contentError
          | some le =>
            match pyInt ((getKey kvs "seeders").getD (Json.num 0)) with
            | none => Except.error PyError.contentError
            | some se =>
              match pyInt ((getKey kvs "num_files").getD (Json.num 0)) with
              | none => Except.error PyError.contentError
              | some nf =>
                match pyInt ((getKey kvs "size").getD (Json.num 0)) with
                | none => Except.error PyError.contentError
                | some sz =>
                  match fromtimestamp_utc added_ts with
                  | none => Except.error PyError.contentError
                  | some addedDt =>
                    match pyInt ((getKey kvs "category").getD (Json.num 0)) with
                    | none => Except.error PyError.contentError
                    | some cat =>
                      Except.ok {
                        id := idv,
                        name := (getKey kvs "name").getD (Json.str ""),
                        info_hash := pyLower ih,
                        leechers := le,
                        seeders := se,
                        num_files := nf,
                        size := sz,
                        username := (getKey kvs "username").getD (Json.str "Anonymous"),
                        added := addedDt,
                        status := (getKey kvs "status").getD (Json.str ""),
                        category := cat,
                        imdb :=
                          match getKey kvs "imdb" with
                          | some v =>
                            if pyTruthy v && !(pyStrip (pyStr v)).toList.isEmpty
                            then some v else none
                          | none => none }
        | _ => Except.error PyError.attributeError
  | _ => Except.error PyError.attributeError

/-- The per-item loop of `parse_torrent_list`: each item is parsed with
`_parse_common_torrent_fields`; a `TPBContentError` is caught and the item
skipped, any other exception propagates. -/
def parseTorrentItems : List Json → Except PyError (List Torrent)
  | [] => Except.ok []
  | item :: rest =>
    match _parse_common_torrent_fields item with
    | Except.ok t =>
      match parseTorrentItems rest with
      | Except.ok ts => Except.ok (t :: ts)
      | Except.error e => Except.error e
    | Except.error PyError.contentError => parseTorrentItems rest
    | Except.error e => Except.error e

/-- `parse_torrent_list` of `just_tbp/utils.py`: empty input yields `[]`;
a singleton whose element's `name` equals the exact sentinel string
"No results returned" yields `[]` (the `.get` call raises
`AttributeError` when that sole element is not a dict); otherwise each
item is parsed, items failing with `TPBContentError` being skipped. -/
def parse_torrent_list (api_response : List Json) : Except PyError (List Torrent) :=
  match api_response with
  | [] => Except.ok []
  | [x] =>
    match x with
    | Json.obj kvs =>
      if getKey kvs "name" = some (Json.str "No results returned") then Except.ok []
      else parseTorrentItems [Json.obj kvs]
    | _ => Except.error PyError.attributeError
  | items => parseTorrentItems items

/-- `parse_torrent_details` of `just_tbp/utils.py`: an empty (falsy)
mapping yields `none`; a mapping whose `name` equals the exact sentinel
string "Torrent does not exsist." yields `none`; otherwise the common
fields are parsed — a `TPBContentError` raised there is caught by the
`except TPBContentError` clause, which returns `None`.  (The following
`except (ValueError, TypeError)` clause that would re-raise as
`TPBContentError` is unreachable: the remaining field accesses and the
dataclass constructor cannot raise those exceptions.) -/
def parse_torrent_details (api_response : List (String × Json)) :
    Except PyError (Option TorrentDetails) :=
  if api_response.isEmpty then Except.ok none
  else if getKey api_response "name" = some (Json.str "Torrent does not exsist.") then
    Except.ok none
  else
    match _parse_common_torrent_fields (Json.obj api_response) with
    | Except.error PyError.contentError => Except.ok none
    | Except.error e => Except.error e
    | Except.ok c =>
      Except.ok (some {
        id := c.id,
        name := c.name,
        info_hash := c.info_hash,
        leechers := c.leechers,
        seeders := c.seeders,
        num_files := c.num_files,
        size := c.size,
        username := c.username,
        added := c.added,
        status := c.status,
        category := c.category,
        descr := (getKey api_response "descr").getD (Json.str ""),
        imdb := c.imdb,
        language :=
          match getKey api_response "language" with
          | some v => if pyTruthy v then some v else none
          | none => none,
        text_language :=
          match getKey api_response "textLanguage" with
          | some v => if pyTruthy v then some v else none
          | none => none })

/-- The conditional unwrap `x[0] if isinstance(x, list) else x` used for
the shape-3 `name`/`size` values of the file-listing parser; indexing an
empty list raises `IndexError`, modelled as `none`. -/
def unwrapFirst : Json → Option Json
  | Json.arr l => l.head?
  | x => some x

/-- The per-item body of the `parse_file_list` loop, trying the three
observed shapes in source order.  `none` covers both the explicit
"unrecognized format" warning path and the caught
`IndexError`/`ValueError`/`TypeError` exceptions — in each case the item
is skipped.
Shape 3 (checked first): a dict with list-valued non-empty `name`/`size`;
the first element of each is taken, unwrapped once more if it is itself a
list (`unwrapFirst`), then `str`/`int`-coerced.
Shape 1: otherwise the first dict value, when it is a truthy list whose
head is a two-element list `[name, size]`, is `str`/`int`-coerced.
Shape 2: a bare two-element list whose first element is a string and whose
second is an int (or bool) or renders as a digit-only string. -/
def parse_file_item (item_data : Json) : Option FileEntry :=
  match item_data with
  | Json.obj kvs =>
    match getKey kvs "name", getKey kvs "size" with
    | some (Json.arr (n0 :: _)), some (Json.arr (s0 :: _)) =>
      match unwrapFirst n0 with
      | none => none
      | some nraw =>
        match unwrapFirst s0 with
        | none => none
        | some sraw =>
          match pyInt sraw with
          | some sz => some { name := pyStr nraw, size := sz }
          | none => none
    | _, _ =>
      match kvs with
      | [] => none
      | (_, v) :: _ =>
        match v with
        | Json.arr (fd :: _) =>
          match fd with
          | Json.arr [nj, sj] =>
            match pyInt sj with
            | some sz => some { name := pyStr nj, size := sz }
            | none => none
          | _ => none
        | _ => none
  | Json.arr [a, b] =>
    match a with
    | Json.str s =>
      if isinstance_int b || pyAllDigits (pyStr b) then
        match pyInt b with
        | some sz => some { name := s, size := sz }
        | none => none
      else none
    | _ => none
  | _ => none

/-- `parse_file_list` of `just_tbp/utils.py`: every element is matched
against the three shapes; unrecognized or throwing elements are skipped,
so the function is total and returns the recognized entries in order. -/
def parse_file_list (api_response : List Json) : List FileEntry :=
  api_response.filterMap parse_file_item

/-- The response-normalization step of `AsyncTPBClient.get_user_page_count`
(`just_tbp/async_client.py`, after the transport call): a single-element
list yields `int` of its element, with `ValueError`/`TypeError`/
`IndexError` caught and every other shape mapped to the default `0`. -/
def get_user_page_count (raw_data : Json) : Int :=
  match raw_data with
  | Json.arr [x] => (pyInt x).getD 0
  | _ => 0

/-- The successfully parsed records of a list payload, in order — the
expected value of `parse_torrent_list` under the partial-success policy. -/
def parsedTorrents (items : List Json) : List Torrent :=
  items.filterMap fun item =>
    match _parse_common_torrent_fields item with
    | Except.ok t => some t
    | Except.error _ => none

/-- A detail payload that is a non-empty mapping, is not the not-found
sentinel, and has a non-coercible `seeders` value. -/
def detailsBadSeeders : List (String × Json) :=
  [("name", Json.str "x"), ("seeders", Json.str "abc")]

/-- A raw item whose `seeders` value encodes a negative integer. -/
def negSeedersItem : Json := Json.obj [("seeders", Json.str "-5")]

/-- A bare-pair file entry with a negative integer size. -/
def negSizePair : Json := Json.arr [Json.str "a", Json.num (-7)]

/-- A raw item whose `username` key is present but maps to the empty
string. -/
def emptyUsernameItem : List (String × Json) := [("username", Json.str "")]

/-- The record produced by parsing the empty mapping: every field takes
its documented default. -/
def defaultTorrent : Torrent :=
  { id := 0, name := Json.str "", info_hash := "", leechers := 0,
    seeders := 0, num_files := 0, size := 0,
    username := Json.str "Anonymous", added := 0, status := Json.str "",
    category := 0, imdb := none }

/-- Helper: a successful `fromtimestamp_utc` returns its input. -/
theorem fromtimestamp_utc_ok {ts out : Int} (h : fromtimestamp_utc ts = some out) :
    out = ts := by
  unfold fromtimestamp_utc at h
  split at h
  · injection h with h; exact h.symm
  · cases h

/-- Characterization of a successful `_parse_common_torrent_fields` run:
every coerced field of the produced record equals the exact coercion of
the corresponding raw value (with the documented defaults for absent
keys), and the `added` field is the raw integer after the millisecond
heuristic. -/
theorem parse_common_ok_fields (kvs : List (String × Json)) (r : Torrent)
    (h : _parse_common_torrent_fields (Json.obj kvs) = Except.ok r) :
    (∃ a0, pyInt ((getKey kvs "added").getD (Json.num 0)) = some a0 ∧
       r.added = if MAX_VALID_TS < a0 then Int.fdiv a0 1000 else a0) ∧
    pyInt ((getKey kvs "id").getD (Json.num 0)) = some r.id ∧
    r.name = (getKey kvs "name").getD (Json.str "") ∧
    pyInt ((getKey kvs "leechers").getD (Json.num 0)) = some r.leechers ∧
    pyInt ((getKey kvs "seeders").getD (Json.num 0)) = some r.seeders ∧
    pyInt ((getKey kvs "num_files").getD (Json.num 0)) = some r.num_files ∧
    pyInt ((getKey kvs "size").getD (Json.num 0)) = some r.size ∧
    r.username = (getKey kvs "username").getD (Json.str "Anonymous") ∧
    r.status = (getKey kvs "status").getD (Json.str "") ∧
    pyInt ((getKey kvs "category").getD (Json.num 0)) = some r.category := by
  simp only [_parse_common_torrent_fields] at h
  cases ha0 : pyInt ((getKey kvs "added").getD (Json.num 0)) with
  | none => rw [ha0] at h; exact Except.noConfusion h
  | some a0 =>
  simp only [ha0] at h
  cases hid : pyInt ((getKey kvs "id").getD (Json.num 0)) with
  | none => rw [hid] at h; exact Except.noConfusion h
  | some idv =>
  simp only [hid] at h
  cases hih : (getKey kvs "info_hash").getD (Json.str "") with
  | null => rw [hih] at h; exact Except.noConfusion h
  | bool b => rw [hih] at h; exact Except.noConfusion h
  | num n => rw [hih] at h; exact Except.noConfusion h
  | arr l => rw [hih] at h; exact Except.noConfusion h
  | obj l => rw [hih] at h; exact Except.noConfusion h
  | str ih =>
  simp only [hih] at h
  cases hle : pyInt ((getKey kvs "leechers").getD (Json.num 0)) with
  | none => rw [hle] at h; exact Except.noConfusion h
  | some le =>
  simp only [hle] at h
  cases hse : pyInt ((getKey kvs "seeders").getD (Json.num 0)) with
  | none => rw [hse] at h; exact Except.noConfusion h
  | some se =>
  simp only [hse] at h
  cases hnf : pyInt ((getKey kvs "num_files").getD (Json.num 0)) with
  | none => rw [hnf] at h; exact Except.noConfusion h
  | some nf =>
  simp only [hnf] at h
  cases hsz : pyInt ((getKey kvs "size").getD (Json.num 0)) with
  | none => rw [hsz] at h; exact Except.noConfusion h
  | some sz =>
  simp only [hsz] at h
  cases hts : fromtimestamp_utc (if MAX_VALID_TS < a0 then Int.fdiv a0 1000 else a0) with
  | none => rw [hts] at h; exact Except.noConfusion h
  | some addedDt =>
  simp only [hts] at h
  cases hcat : pyInt ((getKey kvs "category").getD (Json.num 0)) with
  | none => rw [hcat] at h; exact Except.noConfusion h
  | some cat =>
  simp only [hcat] at h
  injection h with h
  subst h
  exact ⟨⟨a0, rfl, fromtimestamp_utc_ok hts⟩, rfl, rfl, rfl, rfl, rfl, rfl,
    rfl, rfl, rfl⟩

/-- Helper: when no item raises an uncaught exception, the list loop
returns exactly the successfully parsed items, in order. -/
theorem parseTorrentItems_ok (items : List Json)
    (hno : ∀ item ∈ items,
      _parse_common_torrent_fields item ≠ Except.error PyError.attributeError) :
    parseTorrentItems items = Except.ok (parsedTorrents items) := by
  induction items with
  | nil => rfl
  | cons x xs ih =>
    have hx := hno x (List.mem_cons_self x xs)
    have hxs : ∀ item ∈ xs,
        _parse_common_torrent_fields item ≠ Except.error PyError.attributeError :=
      fun item hm => hno item (List.mem_cons_of_mem x hm)
    cases hpx : _parse_common_torrent_fields x with
    | ok t =>
      simp only [parseTorrentItems, hpx, ih hxs, parsedTorrents, List.filterMap_cons]
    | error e =>
      cases e with
      | contentError =>
        simp only [parseTorrentItems, hpx, ih hxs, parsedTorrents, List.filterMap_cons]
      | attributeError => exact absurd hpx hx

/-- Helper: occurrence is reflexive. -/
theorem occursB_refl : ∀ j : Json, occursB j j = true := by
  intro j
  cases j with
  | null => simp [occursB, jsonBeq_refl]
  | bool b => simp [occursB, jsonBeq_refl]
  | num n => simp [occursB, jsonBeq_refl]
  | str s => simp [occursB, jsonBeq_refl]
  | arr l => simp [occursB, jsonBeq_refl]
  | obj l => simp [occursB, jsonBeq_refl]

/-- Helper: occurrence inside a member of a list. -/
theorem occursListB_of_mem {j x : Json} {l : List Json} (hm : x ∈ l)
    (hx : occursB j x = true) : occursListB j l = true := by
  induction l with
  | nil => cases hm
  | cons y ys ih =>
    rw [occursListB]
    rcases List.mem_cons.mp hm with h1 | h2
    · subst h1; rw [hx]; rfl
    · rw [ih h2, Bool.or_true]

/-- Helper: occurrence inside a member value of an association list. -/
theorem occursObjB_of_mem {j v : Json} {k : String}
    {kvs : List (String × Json)} (hm : (k, v) ∈ kvs)
    (hx : occursB j v = true) : occursObjB j kvs = true := by
  induction kvs with
  | nil => cases hm
  | cons y ys ih =>
    rw [occursObjB]
    rcases List.mem_cons.mp hm with h1 | h2
    · subst h1
      show (occursB j v || occursObjB j ys) = true
      rw [hx]
      rfl
    · rw [ih h2, Bool.or_true]

/-- Helper: occurrence in an element lifts to the containing list. -/
theorem occursB_arr {j : Json} {l : List Json} (h : occursListB j l = true) :
    occursB j (Json.arr l) = true := by
  rw [occursB, h, Bool.or_true]

/-- Helper: occurrence in a value lifts to the containing dict. -/
theorem occursB_obj {j : Json} {kvs : List (String × Json)}
    (h : occursObjB j kvs = true) : occursB j (Json.obj kvs) = true := by
  rw [occursB, h, Bool.or_true]

/-- Helper: a successful `getKey` returns one of the dict's values. -/
theorem getKey_some_mem {kvs : List (String × Json)} {k : String} {v : Json}
    (h : getKey kvs k = some v) : ∃ k0, (k0, v) ∈ kvs := by
  unfold getKey at h
  cases hf : List.find? (fun p => p.1 == k) kvs with
  | none => rw [hf] at h; cases h
  | some p =>
    rw [hf] at h
    injection h with h
    refine ⟨p.1, ?_⟩
    have hp : p ∈ kvs := List.mem_of_find?_eq_some hf
    rw [← h, Prod.mk.eta]
    exact hp

/-- Helper: a successful conditional unwrap yields a value occurring in
its input. -/
theorem occursB_of_unwrapFirst {s0 sraw : Json}
    (h : unwrapFirst s0 = some sraw) : occursB sraw s0 = true := by
  cases s0 with
  | arr l =>
    cases l with
    | nil => exact Option.noConfusion h
    | cons x xs =>
      have hx : x = sraw := Option.some.inj h
      subst hx
      exact occursB_arr (occursListB_of_mem (List.mem_cons_self x xs) (occursB_refl x))
  | null =>
    have hx : Json.null = sraw := Option.some.inj h
    rw [← hx]; exact occursB_refl _
  | bool b =>
    have hx : Json.bool b = sraw := Option.some.inj h
    rw [← hx]; exact occursB_refl _
  | num n =>
    have hx : Json.num n = sraw := Option.some.inj h
    rw [← hx]; exact occursB_refl _
  | str s =>
    have hx : Json.str s = sraw := Option.some.inj h
    rw [← hx]; exact occursB_refl _
  | obj l =>
    have hx : Json.obj l = sraw := Option.some.inj h
    rw [← hx]; exact occursB_refl _

/-- Helper: every size in a recognized file entry is the exact `int`
coercion of a raw value occurring in the element itself — no clamping or
adjustment.  (Shape 3 coerces the possibly-unwrapped head of the `size`
value, shape 1 the second component of the head pair of the first dict
value, shape 2 the second component of the bare pair.) -/
theorem parse_file_item_size_exact (item : Json) (e : FileEntry)
    (h : parse_file_item item = some e) :
    ∃ j, occursB j item = true ∧ pyInt j = some e.size := by
  unfold parse_file_item at h
  repeat' split at h
  all_goals try exact Option.noConfusion h
  · rename_i i0 kvs p1 p2 n0 ntail s0 stail hname hsize q1 nraw hn q2 sraw hs q3 sz hsz
    injection h with h
    subst h
    obtain ⟨k0, hk0⟩ := getKey_some_mem hsize
    exact ⟨sraw, occursB_obj (occursObjB_of_mem hk0 (occursB_arr
      (occursListB_of_mem (List.mem_cons_self s0 stail)
        (occursB_of_unwrapFirst hs)))), hsz⟩
  · rename_i i0 p1 p2 kvs0 fst tl1 v0 tl fd nj sj hfb q sz hsz
    injection h with h
    subst h
    refine ⟨sj, occursB_obj (occursObjB_of_mem (List.mem_cons_self _ _) ?_), hsz⟩
    exact occursB_arr (occursListB_of_mem (List.mem_cons_self _ _)
      (occursB_arr (occursListB_of_mem
        (List.mem_cons_of_mem nj (List.mem_cons_self sj []))
        (occursB_refl sj))))
  · rename_i i0 b q1 s hcond q2 sz hsz
    injection h with h
    subst h
    exact ⟨b, occursB_arr (occursListB_of_mem
      (List.mem_cons_of_mem (Json.str s) (List.mem_cons_self b []))
      (occursB_refl b)), hsz⟩

/-- C1: the spec says a coercion failure in a detail payload propagates
as a content error; on this non-empty, non-sentinel payload whose
`seeders` value is non-coercible, `parse_torrent_details` instead returns
the not-found result `None` without error (the `except TPBContentError`
clause swallows the error). -/
theorem C1_counterexample :
    detailsBadSeeders ≠ [] ∧
    getKey detailsBadSeeders "name" ≠ some (Json.str "Torrent does not exsist.") ∧
    pyInt ((getKey detailsBadSeeders "seeders").getD (Json.num 0)) = none ∧
    parse_torrent_details detailsBadSeeders = Except.ok none := by decide

/-- C1 (amended): a detail payload whose field coercion raises the
content error makes `parse_torrent_details` return the not-found result
`None` (after logging), rather than propagating the error. -/
theorem C1_details_error_swallowed (kvs : List (String × Json))
    (h : _parse_common_torrent_fields (Json.obj kvs) = Except.error PyError.contentError) :
    parse_torrent_details kvs = Except.ok none := by
  unfold parse_torrent_details
  split
  · rfl
  · split
    · rfl
    · rw [h]

/-- Witness for C1's amended theorem at the concrete bad-seeders payload. -/
theorem C1_details_error_swallowed_witness :
    _parse_common_torrent_fields (Json.obj detailsBadSeeders) =
      Except.error PyError.contentError ∧
    parse_torrent_details detailsBadSeeders = Except.ok none :=
  ⟨by decide, C1_details_error_swallowed detailsBadSeeders (by decide)⟩

/-- C2: the spec claims every normalized record has non-negative
leechers/seeders/num_files/size and every FileRecord a non-negative size;
the code performs no such clamping: a raw `seeders` of `"-5"` normalizes
successfully to `-5`, and a bare-pair file entry with integer size `-7`
is accepted as-is. -/
theorem C2_counterexample :
    (parse_torrent_list [negSeedersItem]).map (fun l => l.map Torrent.seeders) =
      Except.ok [-5] ∧
    parse_file_list [negSizePair] = [{ name := "a", size := -7 }] := by decide

/-- C2 (amended): normalization performs no sign adjustment: every
numeric field of a successfully normalized record equals the exact
integer coercion of its raw value (0 when the key is absent), and every
FileRecord size is the exact integer coercion of a raw value occurring
in that entry's own source element; the non-negativity stated by the
spec therefore holds exactly when the raw values are non-negative. -/
theorem C2_exact_coercion :
    (∀ kvs r, _parse_common_torrent_fields (Json.obj kvs) = Except.ok r →
      pyInt ((getKey kvs "leechers").getD (Json.num 0)) = some r.leechers ∧
      pyInt ((getKey kvs "seeders").getD (Json.num 0)) = some r.seeders ∧
      pyInt ((getKey kvs "num_files").getD (Json.num 0)) = some r.num_files ∧
      pyInt ((getKey kvs "size").getD (Json.num 0)) = some r.size) ∧
    (∀ item e, parse_file_item item = some e →
      ∃ j, occursB j item = true ∧ pyInt j = some e.size) := by
  constructor
  · intro kvs r h
    obtain ⟨_, _, _, hle, hse, hnf, hsz, _⟩ := parse_common_ok_fields kvs r h
    exact ⟨hle, hse, hnf, hsz⟩
  · exact parse_file_item_size_exact

/-- The record produced by parsing the item whose `seeders` is "3". -/
def seedersThreeRec : Torrent := { defaultTorrent with seeders := 3 }

/-- Witness for C2's amended theorem at concrete inputs. -/
theorem C2_exact_coercion_witness :
    pyInt ((getKey [("seeders", Json.str "3")] "seeders").getD (Json.num 0)) =
      some seedersThreeRec.seeders ∧
    (∃ j, occursB j (Json.arr [Json.str "f", Json.num 9]) = true ∧
      pyInt j = some (FileEntry.size { name := "f", size := 9 })) :=
  ⟨(C2_exact_coercion.1 [("seeders", Json.str "3")] seedersThreeRec (by decide)).2.1,
   C2_exact_coercion.2 (Json.arr [Json.str "f", Json.num 9])
     { name := "f", size := 9 } (by decide)⟩

/-- C3: the spec says a present-but-empty `username` coerces to
"Anonymous"; in the code only a missing key takes the default
(`data.get("username", "Anonymous")`), so the empty string passes
through unchanged. -/
theorem C3_counterexample :
    getKey emptyUsernameItem "username" = some (Json.str "") ∧
    (_parse_common_torrent_fields (Json.obj emptyUsernameItem)).map Torrent.username =
      Except.ok (Json.str "") ∧
    Json.str "" ≠ Json.str "Anonymous" := by decide

/-- C3 (amended): a missing `username` key coerces to the literal string
"Anonymous"; a present value — including the empty string — is passed
through unchanged. -/
theorem C3_username_default (kvs : List (String × Json)) (r : Torrent)
    (h : _parse_common_torrent_fields (Json.obj kvs) = Except.ok r) :
    r.username = (getKey kvs "username").getD (Json.str "Anonymous") :=
  (parse_common_ok_fields kvs r h).2.2.2.2.2.2.2.1

/-- Witness for C3's amended theorem: the empty mapping parses with the
"Anonymous" default. -/
theorem C3_username_default_witness :
    _parse_common_torrent_fields (Json.obj []) = Except.ok defaultTorrent ∧
    defaultTorrent.username = (getKey [] "username").getD (Json.str "Anonymous") :=
  ⟨by decide, C3_username_default [] defaultTorrent (by decide)⟩

/-- C4: an `added` value encoding an integer `t` within the year-9999
boundary normalizes to the timestamp `t` (UTC seconds), and the same
item with `added` scaled to `t * 1000` — exceeding the boundary —
normalizes to the identical timestamp, because values above the boundary
are floor-divided by 1000 before conversion. -/
theorem C4_added_heuristic (kvs kvs2 : List (String × Json)) (t : Int)
    (r r2 : Torrent)
    (ht : pyInt ((getKey kvs "added").getD (Json.num 0)) = some t)
    (hb : t ≤ MAX_VALID_TS)
    (h : _parse_common_torrent_fields (Json.obj kvs) = Except.ok r)
    (ht2 : pyInt ((getKey kvs2 "added").getD (Json.num 0)) = some (t * 1000))
    (hb2 : MAX_VALID_TS < t * 1000)
    (h2 : _parse_common_torrent_fields (Json.obj kvs2) = Except.ok r2) :
    r.added = t ∧ r2.added = t := by
  obtain ⟨⟨a0, ha0, hadded⟩, _⟩ := parse_common_ok_fields kvs r h
  obtain ⟨⟨a1, ha1, hadded2⟩, _⟩ := parse_common_ok_fields kvs2 r2 h2
  rw [ht] at ha0
  rw [ht2] at ha1
  have h0 : t = a0 := Option.some.inj ha0
  have h1 : t * 1000 = a1 := Option.some.inj ha1
  subst h0
  subst h1
  constructor
  · rw [hadded, if_neg (not_lt.mpr hb)]
  · rw [hadded2, if_pos hb2, Int.mul_fdiv_cancel t (by norm_num)]

/-- The record produced by both C4 witness payloads. -/
def addedSecRec : Torrent := { defaultTorrent with added := 1000000000 }

/-- Witness for C4 at a seconds payload and its milliseconds variant. -/
theorem C4_added_heuristic_witness :
    addedSecRec.added = 1000000000 ∧ addedSecRec.added = 1000000000 :=
  C4_added_heuristic [("added", Json.str "1000000000")]
    [("added", Json.str "1000000000000")] 1000000000 addedSecRec addedSecRec
    (by decide) (by decide) (by decide) (by decide) (by decide) (by decide)

/-- C5: a file name and non-negative size presented in each of the three
observed shapes — list-valued `name`/`size` mapping, opaque-index
mapping (any key), and bare pair — normalize to the identical single
FileEntry. -/
theorem C5_file_shapes (k name : String) (size : Int) (_hs : 0 ≤ size) :
    parse_file_list
        [Json.obj [("name", Json.arr [Json.str name]),
                   ("size", Json.arr [Json.num size])]] =
      [{ name := name, size := size }] ∧
    parse_file_list [Json.obj [(k, Json.arr [Json.arr [Json.str name, Json.num size]])]] =
      [{ name := name, size := size }] ∧
    parse_file_list [Json.arr [Json.str name, Json.num size]] =
      [{ name := name, size := size }] := by
  refine ⟨rfl, ?_, rfl⟩
  by_cases hk1 : k = "name"
  · subst hk1; rfl
  · by_cases hk2 : k = "size"
    · subst hk2; rfl
    · have hbeq : (k == "name") = false := beq_eq_false_iff_ne.mpr hk1
      have h1 : getKey [(k, Json.arr [Json.arr [Json.str name, Json.num size]])] "name" =
          none := by
        simp [getKey, List.find?, hbeq]
      have hitem :
          parse_file_item (Json.obj [(k, Json.arr [Json.arr [Json.str name, Json.num size]])]) =
            some { name := name, size := size } := by
        simp only [parse_file_item]
        rw [h1]
        exact rfl
      simp [parse_file_list, hitem]

/-- Witness for C5 at the spec's example content. -/
theorem C5_file_shapes_witness :
    (0 : Int) ≤ 123456789 ∧
    (parse_file_list
        [Json.obj [("name", Json.arr [Json.str "movie.mkv"]),
                   ("size", Json.arr [Json.num 123456789])]] =
       [{ name := "movie.mkv", size := 123456789 }] ∧
     parse_file_list
        [Json.obj [("0", Json.arr [Json.arr [Json.str "movie.mkv", Json.num 123456789]])]] =
       [{ name := "movie.mkv", size := 123456789 }] ∧
     parse_file_list [Json.arr [Json.str "movie.mkv", Json.num 123456789]] =
       [{ name := "movie.mkv", size := 123456789 }]) :=
  ⟨by decide, C5_file_shapes "0" "movie.mkv" 123456789 (by decide)⟩

/-- C6: a list payload containing at least one well-formed item and at
least one item whose required numeric field fails coercion (and no item
triggering an uncaught exception) normalizes, without error, to exactly
the well-formed items in payload order — the malformed items are
dropped. -/
theorem C6_list_skips_malformed (items : List Json)
    (hno : ∀ item ∈ items,
      _parse_common_torrent_fields item ≠ Except.error PyError.attributeError)
    (hgood : ∃ item ∈ items, ∃ t, _parse_common_torrent_fields item = Except.ok t)
    (hbad : ∃ item ∈ items,
      _parse_common_torrent_fields item = Except.error PyError.contentError) :
    parse_torrent_list items = Except.ok (parsedTorrents items) ∧
    parsedTorrents items ≠ [] := by
  obtain ⟨a, ha, t, hat⟩ := hgood
  obtain ⟨b, hb, hbt⟩ := hbad
  have hab : a ≠ b := by
    intro hh
    rw [hh, hbt] at hat
    exact Except.noConfusion hat
  have hmem : t ∈ parsedTorrents items := by
    unfold parsedTorrents
    exact List.mem_filterMap.mpr ⟨a, ha, by rw [hat]⟩
  cases items with
  | nil => exact absurd ha (List.not_mem_nil a)
  | cons x xs =>
    cases xs with
    | nil =>
      have hax : a = x := List.mem_singleton.mp ha
      have hbx : b = x := List.mem_singleton.mp hb
      exact absurd (hax.trans hbx.symm) hab
    | cons y ys =>
      exact ⟨parseTorrentItems_ok (x :: y :: ys) hno, List.ne_nil_of_mem hmem⟩

/-- A well-formed raw item (name only; all numeric fields default). -/
def goodItem : Json := Json.obj [("name", Json.str "good")]

/-- A raw item with a non-coercible `seeders` value. -/
def badSeedersItem : Json := Json.obj [("seeders", Json.str "abc")]

/-- Witness for C6 at a two-element payload with one good and one bad
item. -/
theorem C6_list_skips_malformed_witness :
    parse_torrent_list [goodItem, badSeedersItem] =
      Except.ok (parsedTorrents [goodItem, badSeedersItem]) ∧
    parsedTorrents [goodItem, badSeedersItem] ≠ [] :=
  C6_list_skips_malformed [goodItem, badSeedersItem] (by decide)
    ⟨goodItem, by decide, { defaultTorrent with name := Json.str "good" }, by decide⟩
    ⟨badSeedersItem, by decide, by decide⟩

/-- C7: an empty list payload normalizes to the empty sequence, and so
does a singleton whose element's `name` equals the exact sentinel string
"No results returned"; neither raises an error. -/
theorem C7_empty_and_sentinel (kvs : List (String × Json))
    (h : getKey kvs "name" = some (Json.str "No results returned")) :
    parse_torrent_list [] = Except.ok [] ∧
    parse_torrent_list [Json.obj kvs] = Except.ok [] := by
  refine ⟨rfl, ?_⟩
  simp only [parse_torrent_list]
  rw [if_pos h]

/-- Witness for C7 at the literal sentinel payload. -/
theorem C7_empty_and_sentinel_witness :
    getKey [("name", Json.str "No results returned")] "name" =
      some (Json.str "No results returned") ∧
    (parse_torrent_list [] = Except.ok [] ∧
     parse_torrent_list [Json.obj [("name", Json.str "No results returned")]] =
       Except.ok []) :=
  ⟨by decide, C7_empty_and_sentinel _ (by decide)⟩

/-- C8: an empty detail mapping normalizes to the not-found result
`None`, and so does a mapping whose `name` equals the exact misspelled
sentinel string "Torrent does not exsist."; neither raises an error. -/
theorem C8_details_not_found (kvs : List (String × Json))
    (h : getKey kvs "name" = some (Json.str "Torrent does not exsist.")) :
    parse_torrent_details [] = Except.ok none ∧
    parse_torrent_details kvs = Except.ok none := by
  refine ⟨rfl, ?_⟩
  simp [parse_torrent_details, h]

/-- Witness for C8 at the literal sentinel payload. -/
theorem C8_details_not_found_witness :
    getKey [("name", Json.str "Torrent does not exsist.")] "name" =
      some (Json.str "Torrent does not exsist.") ∧
    (parse_torrent_details [] = Except.ok none ∧
     parse_torrent_details [("name", Json.str "Torrent does not exsist.")] =
       Except.ok none) :=
  ⟨by decide, C8_details_not_found _ (by decide)⟩

/-- C9: page-count normalization decodes a single-element list holding a
coercible string, and returns the default 0 — never an error — for a
list of any other length, for a single non-coercible element, and for a
mapping payload. -/
theorem C9_page_count_norm :
    (∀ s n, pyInt (Json.str s) = some n →
      get_user_page_count (Json.arr [Json.str s]) = n) ∧
    (∀ l : List Json, l.length ≠ 1 → get_user_page_count (Json.arr l) = 0) ∧
    (∀ x, pyInt x = none → get_user_page_count (Json.arr [x]) = 0) ∧
    (∀ kvs, get_user_page_count (Json.obj kvs) = 0) := by
  refine ⟨?_, ?_, ?_, fun kvs => rfl⟩
  · intro s n h
    show (pyInt (Json.str s)).getD 0 = n
    rw [h]
    rfl
  · intro l hl
    cases l with
    | nil => rfl
    | cons x xs =>
      cases xs with
      | nil => exact absurd rfl hl
      | cons y ys => rfl
  · intro x h
    show (pyInt x).getD 0 = 0
    rw [h]
    rfl

/-- Witness for C9 at the spec's example payloads. -/
theorem C9_page_count_norm_witness :
    pyInt (Json.str "15") = some 15 ∧
    get_user_page_count (Json.arr [Json.str "15"]) = 15 ∧
    get_user_page_count (Json.arr []) = 0 ∧
    pyInt (Json.str "abc") = none ∧
    get_user_page_count (Json.arr [Json.str "abc"]) = 0 ∧
    get_user_page_count (Json.obj []) = 0 :=
  ⟨by decide, C9_page_count_norm.1 "15" 15 (by decide),
   C9_page_count_norm.2.1 [] (by decide),
   by decide, C9_page_count_norm.2.2.1 (Json.str "abc") (by decide),
   C9_page_count_norm.2.2.2 []⟩

/-- C10: a raw item in which a numeric field key is entirely absent still
normalizes (coercion of the missing field cannot fail) and takes the
default 0 for that field — the Unix epoch for `added` — and a missing
`category` yields 0, which is outside the closed category enumeration. -/
theorem C10_missing_numeric_defaults (kvs : List (String × Json)) (r : Torrent)
    (h : _parse_common_torrent_fields (Json.obj kvs) = Except.ok r) :
    (getKey kvs "id" = none → r.id = 0) ∧
    (getKey kvs "leechers" = none → r.leechers = 0) ∧
    (getKey kvs "seeders" = none → r.seeders = 0) ∧
    (getKey kvs "num_files" = none → r.num_files = 0) ∧
    (getKey kvs "size" = none → r.size = 0) ∧
    (getKey kvs "added" = none → r.added = 0) ∧
    (getKey kvs "category" = none → r.category = 0 ∧ (0 : Int) ∉ categoryIds) := by
  obtain ⟨⟨a0, ha0, hadded⟩, hid, _, hle, hse, hnf, hsz, _, _, hcat⟩ :=
    parse_common_ok_fields kvs r h
  refine ⟨?_, ?_, ?_, ?_, ?_, ?_, ?_⟩
  · intro habs; rw [habs] at hid; exact (Option.some.inj hid).symm
  · intro habs; rw [habs] at hle; exact (Option.some.inj hle).symm
  · intro habs; rw [habs] at hse; exact (Option.some.inj hse).symm
  · intro habs; rw [habs] at hnf; exact (Option.some.inj hnf).symm
  · intro habs; rw [habs] at hsz; exact (Option.some.inj hsz).symm
  · intro habs
    rw [habs] at ha0
    have h0 : (0 : Int) = a0 := Option.some.inj ha0
    rw [hadded, ← h0]
    decide
  · intro habs
    rw [habs] at hcat
    exact ⟨(Option.some.inj hcat).symm, by decide⟩

/-- Witness for C10 at the empty mapping: every numeric field defaults. -/
theorem C10_missing_numeric_defaults_witness :
    getKey [] "added" = none ∧ defaultTorrent.added = 0 ∧
    getKey [] "category" = none ∧
    (defaultTorrent.category = 0 ∧ (0 : Int) ∉ categoryIds) :=
  ⟨by decide,
   (C10_missing_numeric_defaults [] defaultTorrent (by decide)).2.2.2.2.2.1 (by decide),
   by decide,
   (C10_missing_numeric_defaults [] defaultTorrent (by decide)).2.2.2.2.2.2 (by decide)⟩

end JustTBP
